import Mathlib

/-!
Shallow embedding of the KazTron bot runner (`kaztron/runner.py`) and of the
project wizard manager (`kaztron/cog/projects/wizard.py`), with theorems about
the exponential backoff driver, the supervision loop, session teardown, and the
wizard manager operations.
-/

namespace KazTron

/-! ### Error codes (`runner.py`, class `ErrorCodes`) -/

def ErrorCodes.OK : Nat := 0

def ErrorCodes.ERROR : Nat := 1

def ErrorCodes.DAEMON_RUNNING : Nat := 4

def ErrorCodes.DAEMON_NOT_RUNNING : Nat := 5

def ErrorCodes.EXTENSION_LOAD : Nat := 7

def ErrorCodes.RETRY_MAX_ATTEMPTS : Nat := 8

def ErrorCodes.CFG_FILE : Nat := 17

/-! ### Backoff (`runner.py`, class `Backoff`)

Delays are modelled as rationals.  The jitter term `random.randint(0, 1000) / 1000`
is modelled by an explicit argument `j : Nat` (the draw of `randint(0, 1000)`,
hence constrained by `j ≤ 1000` where it matters), divided by 1000. -/

structure Backoff where
  t0 : ℚ
  base : ℚ
  max : ℕ
  n : ℕ
deriving Repr, DecidableEq

/-- `Backoff.__init__(initial_time, base, max_attempts)`: sets fields and calls
`reset()`, so `n = 0`. -/
def Backoff.make (initial_time : ℚ) (base : ℚ) (max_attempts : ℕ) : Backoff :=
  ⟨initial_time, base, max_attempts, 0⟩

/-- `Backoff.reset`: sets the attempt counter `n` to 0. -/
def Backoff.reset (b : Backoff) : Backoff :=
  ⟨b.t0, b.base, b.max, 0⟩

/-- `Backoff.next`: if `n < max`, returns `t0 * base ** n + randint(0, 1000) / 1000`
and increments `n`; otherwise raises `StopIteration("Maximum attempts exceeded")`. -/
def Backoff.next (b : Backoff) (j : ℕ) : Except String (ℚ × Backoff) :=
  if b.n < b.max then
    .ok (b.t0 * b.base ^ b.n + (j : ℚ) / 1000, ⟨b.t0, b.base, b.max, b.n + 1⟩)
  else
    .error "Maximum attempts exceeded"

/-- Iterated calls of `Backoff.next` (jitter draw fixed at 0, which does not
affect success or failure); stops at the first raised `StopIteration`. -/
def Backoff.iterate (b : Backoff) : ℕ → Except String Backoff
  | 0 => .ok b
  | k + 1 =>
    match b.next 0 with
    | .ok p => Backoff.iterate p.2 k
    | .error e => .error e

/-- `reset_backoff` (local function in `run_reboot_loop`): resets the backoff
only if the tagged sequence number still equals the current attempt counter. -/
def reset_backoff (backoff : Backoff) (sequence : ℕ) : Backoff :=
  if sequence = backoff.n then backoff.reset else backoff

/-! ### One bot run (`runner.py`, function `run`)

The body of `run` after extension loading is a `try/except/finally`: the
`try` block logs in and connects (blocking until disconnect); `except
KeyboardInterrupt` closes the client and calls `sys.exit(ErrorCodes.OK)`;
`except Exception` logs, closes the client and returns normally (the
commented-out `sys.exit(ErrorCodes.ERROR)` is not executed); the `finally`
block collects all pending tasks of the loop, gathers them with
`return_exceptions=True`, cancels the gather, runs it to completion inside a
`try/except: pass` (so cancellation errors are suppressed), and then calls
`KazCog.state.write()`.  We model the observable effects as an event list and
the control outcome (normal return vs `sys.exit`). -/

inductive SessionOutcome
  | disconnected
  | fault
  | interrupt
deriving Repr, DecidableEq

inductive RunEvent
  | closeClient
  | logFault
  | cancelTask (t : ℕ)
  | awaitTasks (ts : List ℕ)
  | writeState
deriving Repr, DecidableEq

inductive RunExit
  | ret
  | exit (code : ℕ)
deriving Repr, DecidableEq

/-- The `finally` block of `run`: cancel every pending task, await them all
(cancellation errors suppressed by `return_exceptions=True` and the enclosing
`try/except: pass`), then persist the runtime state. -/
def runFinally (pending : List ℕ) : List RunEvent :=
  pending.map RunEvent.cancelTask ++ [RunEvent.awaitTasks pending, RunEvent.writeState]

/-- `run(loop)` from the start of its `try` block: `pending` is the set of
still-outstanding tasks at teardown time. -/
def run (outcome : SessionOutcome) (pending : List ℕ) : List RunEvent × RunExit :=
  match outcome with
  | .disconnected => (runFinally pending, .ret)
  | .interrupt => (RunEvent.closeClient :: runFinally pending, .exit ErrorCodes.OK)
  | .fault => (RunEvent.logFault :: RunEvent.closeClient :: runFinally pending, .ret)

/-! ### Supervision loop (`runner.py`, function `run_reboot_loop`) -/

structure LoopSession where
  outcome : SessionOutcome
  pending : List ℕ
  /-- whether the scheduled `reset_backoff` callback fires during this session
  (i.e. the session outlasts `wait_time` on the event loop); it is cancelled
  right after `run` returns, and the tag it carries is the value of
  `bo_timer.n` at scheduling time. -/
  resetFires : Bool
  /-- the `randint(0, 1000)` draw of this iteration's `Backoff.next` call. -/
  jitter : ℕ
deriving Repr, DecidableEq

inductive LoopResult
  | exited (code : ℕ)
  | running (bo : Backoff)
deriving Repr, DecidableEq

/-- `run_reboot_loop`: each iteration schedules the reset action tagged with
the current `bo_timer.n`, runs one session, then (if the session returned
normally) advances the backoff; `StopIteration` from `Backoff.next` is caught
and turns into `sys.exit(ErrorCodes.RETRY_MAX_ATTEMPTS)`; a `sys.exit` from
inside `run` propagates out.  A `LoopResult.running` value means the supplied
session trace is exhausted with the loop still going. -/
def run_reboot_loop (bo : Backoff) : List LoopSession → LoopResult
  | [] => .running bo
  | s :: rest =>
    let bo1 := if s.resetFires then reset_backoff bo bo.n else bo
    match (run s.outcome s.pending).2 with
    | .exit code => .exited code
    | .ret =>
      match bo1.next s.jitter with
      | .ok p => run_reboot_loop p.2 rest
      | .error _ => .exited ErrorCodes.RETRY_MAX_ATTEMPTS

/-! ### Project wizard (`kaztron/cog/projects/wizard.py`)

The wizard class itself is `ProjectWizard = make_wizard(keys, questions,
validators, serializers, keys_optional)`; `kaztron/utils/wizard.py` (the
`make_wizard` factory) is not among the sources, so the wizard object is
modelled from the spec, while the `WizardManager` operations below follow
`wizard.py` line by line.  User ids are modelled as naturals, timestamps as
naturals, and a Python `dict` as an association list with unique keys. -/

def question_keys : List String := ["title", "genre", "subgenre", "type", "pitch"]

def keys_optional : List String := ["subgenre"]

def start_msg : String :=
  "**New Project Wizard**\n\nLet the server know what projects you\x27re working on! " ++
  "Other members on the server can look up any of your registered projects. " ++
  "To cancel this wizard, type `.project cancel`."

/-- `start_edit_msg_fmt.format(proj)`: the edit-wizard start message,
parameterized by the existing project's title. -/
def start_edit_msg (title : String) : String :=
  "**Edit Project Wizard**\n\nYou are editing your current project, " ++ title ++
  ". If you don\x27t want to change a previous value, type `None` for that " ++
  "question. To cancel this wizard, type `.project cancel`."

def end_msg : String :=
  "Your project is set up! Other members can now look it up and find out what" ++
  "you\x27re up to!\n\nIf you\x27d like to re-run this wizard to make changes to your " ++
  "project, use `.project wizard`. You can also edit fields or add additional " ++
  "info using the `.project set` series of commands. Do `.help projects set` " ++
  "for more information."

/-- Modelled from the spec: the `genre` prompt is computed dynamically from a
database query (`query_genres` in `kaztron/cog/projects/query.py`, not among
the sources); modelled as an opaque computed string. -/
def genre_question : String :=
  "What genre is your project? Available genres: (computed from the genre " ++
  "table). (You can specify a more specific sub-genre later.)"

/-- Modelled from the spec: the `type` prompt is computed dynamically from a
database query (`query_project_types`, not among the sources). -/
def type_question : String :=
  "What kind of project? Available types: (computed from the project type table)."

def questionText (key : String) : String :=
  if key == "title" then "What is your project\x27s title?"
  else if key == "genre" then genre_question
  else if key == "subgenre" then
    "What specific sub-genre is your project? Type `none` if you don\x27t want " ++
    "to add a sub-genre."
  else if key == "type" then type_question
  else if key == "pitch" then "Give an elevator pitch (about 50 words) for your project!"
  else ""

/-- Modelled from the spec: a wizard produced by `make_wizard` (source file not
among the sources).  Fields per spec section 3; `opts` is the list of optional
(skippable) keys — `keys_optional` for "new" wizards, all keys for "edit"
wizards.  Validated values are reconstructed from `raw_answers`, so only raw
answers are carried. -/
structure ProjectWizard where
  owner_id : ℕ
  created_at : ℕ
  current_index : ℕ
  raw_answers : List (String × String)
  opts : List String
deriving Repr, DecidableEq

/-- Modelled from the spec: `is_done` is true when all keys are consumed. -/
def ProjectWizard.is_done (w : ProjectWizard) : Bool :=
  w.current_index == question_keys.length

/-- Modelled from the spec: the current question's prompt, dynamically
evaluated; fails with `WizardDone` when `current_index` is out of range. -/
def ProjectWizard.question (w : ProjectWizard) : Except String String :=
  match question_keys.get? w.current_index with
  | some key => .ok (questionText key)
  | none => .error "WizardDone"

/-- Modelled from the spec: `answer(raw_text)` — if the current key is optional
and the text case-insensitively equals the skip token `none`, advance without
storing; otherwise validate and store, advancing on success.  The validators
for `genre` and `type` query an external database (not among the sources) and
the length bounds live in the missing `model.py`, so validation is modelled as
accepting the raw string; no claim below depends on a validator rejecting. -/
def ProjectWizard.answer (w : ProjectWizard) (content : String) : Except String ProjectWizard :=
  match question_keys.get? w.current_index with
  | none => .error "WizardDone"
  | some key =>
    if w.opts.contains key && content.toLower == "none" then
      .ok ⟨w.owner_id, w.created_at, w.current_index + 1, w.raw_answers, w.opts⟩
    else
      .ok ⟨w.owner_id, w.created_at, w.current_index + 1,
           w.raw_answers ++ [(key, content)], w.opts⟩

/-! ### Python dict model -/

/-- `d[k]`, as `None`-free lookup: `some v` when the key is present. -/
def dget? {α : Type} (m : List (ℕ × α)) (k : ℕ) : Option α :=
  (m.find? (fun p => p.1 == k)).map Prod.snd

/-- `k in d`. -/
def dcontains {α : Type} (m : List (ℕ × α)) (k : ℕ) : Bool :=
  m.any (fun p => p.1 == k)

/-- `d[k] = v`. -/
def dset {α : Type} (m : List (ℕ × α)) (k : ℕ) (v : α) : List (ℕ × α) :=
  if dcontains m k then m.map (fun p => if p.1 == k then (k, v) else p)
  else m ++ [(k, v)]

/-- `del d[k]` (no-op when the key is absent, matching the callers below which
guard with `try/except KeyError`). -/
def derase {α : Type} (m : List (ℕ × α)) (k : ℕ) : List (ℕ × α) :=
  m.filter (fun p => p.1 != k)

/-! ### WizardManager (`wizard.py`, class `WizardManager`)

`self.wizards` is a dict of two user-id→wizard dicts, iterated in insertion
order: `'new'` first, then `'edit'`.  A dict entry can hold `None` (the code
defends against this in `get_wizard_for`), so values are `Option ProjectWizard`. -/

abbrev UserDict := List (ℕ × Option ProjectWizard)

structure WizardManager where
  new_wizards : UserDict
  edit_wizards : UserDict
deriving Repr, DecidableEq

/-- Exceptions raised by the manager's operations. -/
inductive WizError
  /-- `commands.CommandError("You already have an ongoing wizard!")` -/
  | alreadyOpen
  /-- `KeyError("Member ... does not have an active wizard")` -/
  | noActiveWizard
  /-- `KeyError("Wizard for user ... not completed yet")` -/
  | notDone
  /-- an exception raised by the collaborator `bot.send_message` -/
  | sendFailed
  /-- an exception raised by `wizard.answer` or `wizard.question` -/
  | answerFailed (msg : String)
deriving Repr, DecidableEq

deriving instance DecidableEq for Except

/-- Result of one manager operation: the post-state, the messages sent via
`bot.send_message` (in order), and the returned value or raised exception. -/
structure OpResult (α : Type) where
  state : WizardManager
  msgs : List String
  result : Except WizError α
deriving Repr, DecidableEq

/-- `has_open_wizard`: `any(member.id in w for w in self.wizards.values())`. -/
def has_open_wizard (m : WizardManager) (uid : ℕ) : Bool :=
  dcontains m.new_wizards uid || dcontains m.edit_wizards uid

/-- `get_wizard_for`: walks the `'new'` then the `'edit'` mapping; a missing
key or a `None` value raises `KeyError` and moves on; if neither mapping has a
non-`None` wizard, raises `KeyError("... does not have an active wizard")`. -/
def get_wizard_for (m : WizardManager) (uid : ℕ) : Except WizError (String × ProjectWizard) :=
  match dget? m.new_wizards uid with
  | some (some w) => .ok ("new", w)
  | _ =>
    match dget? m.edit_wizards uid with
    | some (some w) => .ok ("edit", w)
    | _ => .error .noActiveWizard

/-- `send_question`: sends the current question of the user's wizard. -/
def send_question (m : WizardManager) (uid : ℕ) : Except WizError String :=
  match get_wizard_for m uid with
  | .error e => .error e
  | .ok kw =>
    match kw.2.question with
    | .ok q => .ok q
    | .error msg => .error (.answerFailed msg)

def fresh_wizard (uid ts : ℕ) : ProjectWizard :=
  ⟨uid, ts, 0, [], keys_optional⟩

/-- `create_new_wizard(member, timestamp)`.  The two `bot.send_message` calls
may raise (collaborator failure), modelled by `sendStartOk` / `sendQuestionOk`.
NOTE (faithful to the source): the `except` handler evaluates
`self.cancel_wizards(member)` without `await`, so the produced coroutine never
runs, no state is removed, and the exception propagates with the freshly
inserted wizard still in the `'new'` mapping. -/
def create_new_wizard (m : WizardManager) (uid ts : ℕ)
    (sendStartOk sendQuestionOk : Bool) : OpResult Unit :=
  if has_open_wizard m uid then
    ⟨m, [], .error .alreadyOpen⟩
  else
    let m1 : WizardManager :=
      ⟨dset m.new_wizards uid (some (fresh_wizard uid ts)), m.edit_wizards⟩
    if !sendStartOk then
      ⟨m1, [], .error .sendFailed⟩
    else
      match send_question m1 uid with
      | .error e => ⟨m1, [start_msg], .error e⟩
      | .ok q =>
        if !sendQuestionOk then ⟨m1, [start_msg], .error .sendFailed⟩
        else ⟨m1, [start_msg, q], .ok ()⟩

/-- `create_edit_wizard(member, timestamp, proj)`: like `create_new_wizard`,
but the wizard's `opts` is set to all question keys and it is inserted into
the `'edit'` mapping; the same missing `await` applies to the cleanup. -/
def create_edit_wizard (m : WizardManager) (uid ts : ℕ) (projTitle : String)
    (sendStartOk sendQuestionOk : Bool) : OpResult Unit :=
  if has_open_wizard m uid then
    ⟨m, [], .error .alreadyOpen⟩
  else
    let w : ProjectWizard := ⟨uid, ts, 0, [], question_keys⟩
    let m1 : WizardManager := ⟨m.new_wizards, dset m.edit_wizards uid (some w)⟩
    if !sendStartOk then
      ⟨m1, [], .error .sendFailed⟩
    else
      match send_question m1 uid with
      | .error e => ⟨m1, [start_edit_msg projTitle], .error e⟩
      | .ok q =>
        if !sendQuestionOk then ⟨m1, [start_edit_msg projTitle], .error .sendFailed⟩
        else ⟨m1, [start_edit_msg projTitle, q], .ok ()⟩

/-- `process_answer(message)`: looks the author's wizard up (propagating the
`KeyError` if there is none) and feeds the message content into `answer()`;
the wizard object is mutated in place, modelled as updating its map entry. -/
def process_answer (m : WizardManager) (uid : ℕ) (content : String) : OpResult Unit :=
  match get_wizard_for m uid with
  | .error e => ⟨m, [], .error e⟩
  | .ok (name, w) =>
    match w.answer content with
    | .error msg => ⟨m, [], .error (.answerFailed msg)⟩
    | .ok w2 =>
      if name == "new" then
        ⟨⟨dset m.new_wizards uid (some w2), m.edit_wizards⟩, [], .ok ()⟩
      else
        ⟨⟨m.new_wizards, dset m.edit_wizards uid (some w2)⟩, [], .ok ()⟩

/-- `close_wizard(member)`: fails like `get_wizard_for` if there is no active
wizard; raises `KeyError("... not completed yet")` unless `is_done`; otherwise
deletes the entry, sends `end_msg`, and returns `(kind, wizard)`. -/
def close_wizard (m : WizardManager) (uid : ℕ) : OpResult (String × ProjectWizard) :=
  match get_wizard_for m uid with
  | .error e => ⟨m, [], .error e⟩
  | .ok (name, w) =>
    if w.is_done then
      if name == "new" then
        ⟨⟨derase m.new_wizards uid, m.edit_wizards⟩, [end_msg], .ok (name, w)⟩
      else
        ⟨⟨m.new_wizards, derase m.edit_wizards uid⟩, [end_msg], .ok (name, w)⟩
    else
      ⟨m, [], .error .notDone⟩

def cancel_new_msg : String := "New project has been cancelled."

def cancel_edit_msg : String := "Editing your project has been cancelled."

/-- `cancel_wizards(member)`: tries `del` on the `'new'` then the `'edit'`
mapping; a `KeyError` is swallowed, a successful delete sends the
kind-specific cancellation notice. -/
def cancel_wizards (m : WizardManager) (uid : ℕ) : WizardManager × List String :=
  let st1 : WizardManager × List String :=
    if dcontains m.new_wizards uid then
      (⟨derase m.new_wizards uid, m.edit_wizards⟩, [cancel_new_msg])
    else (m, [])
  if dcontains st1.1.edit_wizards uid then
    (⟨st1.1.new_wizards, derase st1.1.edit_wizards uid⟩, st1.2 ++ [cancel_edit_msg])
  else st1

/-- The at-most-one-wizard-per-user invariant: no user id is a key of both
mappings at once. -/
def disjoint_wizards (m : WizardManager) : Bool :=
  m.new_wizards.all (fun p => !dcontains m.edit_wizards p.1)

/-- Propositional form of `disjoint_wizards`, used in the proofs. -/
def DisjointP (m : WizardManager) : Prop :=
  ∀ u, dcontains m.new_wizards u = true → dcontains m.edit_wizards u = false

/-- Whether an `Except` value is a success. -/
def isOkE {ε α : Type} : Except ε α → Bool
  | .ok _ => true
  | .error _ => false

/-! ## Theorems -/

/-! ### Backoff lemmas -/

theorem Backoff.iterate_ok (k : ℕ) :
    ∀ b : Backoff, b.n + k ≤ b.max →
      b.iterate k = .ok ⟨b.t0, b.base, b.max, b.n + k⟩ := by
  induction k with
  | zero => intro b _; rfl
  | succ k ih =>
    intro b hb
    have hlt : b.n < b.max := by omega
    have hstep : b.next 0 = .ok (b.t0 * b.base ^ b.n + (0 : ℚ) / 1000,
        ⟨b.t0, b.base, b.max, b.n + 1⟩) := by
      simp [Backoff.next, hlt]
    have := ih ⟨b.t0, b.base, b.max, b.n + 1⟩ (by simpa using by omega)
    simp only [Backoff.iterate, hstep]
    simpa [Nat.add_assoc, Nat.add_comm, Nat.add_left_comm] using this

theorem Backoff.iterate_stop (k : ℕ) :
    ∀ b : Backoff, b.n ≤ b.max → b.max < b.n + k →
      b.iterate k = .error "Maximum attempts exceeded" := by
  induction k with
  | zero => intro b h1 h2; omega
  | succ k ih =>
    intro b h1 h2
    by_cases hlt : b.n < b.max
    · have hstep : b.next 0 = .ok (b.t0 * b.base ^ b.n + (0 : ℚ) / 1000,
          ⟨b.t0, b.base, b.max, b.n + 1⟩) := by
        simp [Backoff.next, hlt]
      simp only [Backoff.iterate, hstep]
      exact ih ⟨b.t0, b.base, b.max, b.n + 1⟩ (by simpa using hlt) (by simp; omega)
    · have hstep : b.next 0 = .error "Maximum attempts exceeded" := by
        simp [Backoff.next, hlt]
      simp [Backoff.iterate, hstep]

/-- C1 (amended): when `attempt_count < max_attempts`, `next()` returns
`initial_delay * base^attempt_count + jitter` and increments the counter,
where `jitter = randint(0, 1000)/1000` lies in the closed interval [0, 1]
(it equals 1.0 exactly when the draw is 1000, since `randint` is inclusive);
when `attempt_count == max_attempts`, `next()` raises the retry-limit error;
starting from a reset state, `max_attempts` consecutive calls all succeed and
the `(max_attempts+1)`th raises. -/
theorem backoff_next_spec (b : Backoff) (j : ℕ) (hj : j ≤ 1000) :
    (b.n < b.max →
      b.next j = .ok (b.t0 * b.base ^ b.n + (j : ℚ) / 1000, ⟨b.t0, b.base, b.max, b.n + 1⟩) ∧
      0 ≤ (j : ℚ) / 1000 ∧ (j : ℚ) / 1000 ≤ 1) ∧
    (b.n = b.max → b.next j = .error "Maximum attempts exceeded") ∧
    isOkE (b.reset.iterate b.max) = true ∧
    b.reset.iterate (b.max + 1) = .error "Maximum attempts exceeded" := by
  refine ⟨fun h => ⟨by simp [Backoff.next, h], by positivity, ?_⟩, fun h => ?_, ?_, ?_⟩
  · rw [div_le_one (by norm_num)]
    exact_mod_cast hj
  · simp [Backoff.next, h]
  · rw [Backoff.iterate_ok b.max b.reset (by simp [Backoff.reset])]
    rfl
  · exact Backoff.iterate_stop (b.max + 1) b.reset (by simp [Backoff.reset])
      (by simp [Backoff.reset])

/-- Witness for C1: a concrete `Backoff(1, 2, max_attempts=2)` with jitter draw
250: `next()` returns `1 * 2^0 + 0.25 = 1.25` and bumps the counter; the third
iterated call after a reset raises. -/
theorem backoff_next_spec_witness :
    (Backoff.make 1 2 2).next 250 = .ok (5/4, ⟨1, 2, 2, 1⟩) ∧
    (Backoff.make 1 2 2).reset.iterate ((Backoff.make 1 2 2).max + 1) =
      .error "Maximum attempts exceeded" := by
  have h := backoff_next_spec (Backoff.make 1 2 2) 250 (by decide)
  refine ⟨?_, h.2.2.2⟩
  rw [(h.1 (by decide)).1]
  norm_num [Backoff.make]

/-- C1 counterexample: the claim's jitter interval `[0, 1.0)` is wrong:
`random.randint(0, 1000)` is inclusive of 1000, so the jitter can be exactly
1.0.  With `Backoff(1, 2, 8)` and the draw 1000 the returned delay is 2, whose
jitter component `2 - 1 * 2^0 = 1` is not `< 1`. -/
theorem backoff_jitter_counterexample :
    (Backoff.make 1 2 8).next 1000 = .ok (2, ⟨1, 2, 8, 1⟩) ∧
    ¬ ((2 : ℚ) - 1 * 2 ^ (0 : ℕ) < 1) := by
  constructor
  · simp only [Backoff.make, Backoff.next, if_pos (by norm_num : (0 : ℕ) < 8)]
    norm_num
  · norm_num

/-- C5: the scheduled reset action applies `reset()` iff its tagged sequence
number still equals the backoff's current counter; a stale tag leaves the
state unchanged. -/
theorem reset_backoff_guard (b : Backoff) (s : ℕ) :
    (s = b.n → reset_backoff b s = b.reset) ∧
    (s ≠ b.n → reset_backoff b s = b) := by
  constructor <;> intro h <;> simp [reset_backoff, h]

/-- Witness for C5 at a concrete backoff state with counter 3: a matching tag
resets, the stale tag 5 is a no-op. -/
theorem reset_backoff_guard_witness :
    reset_backoff ⟨1, 2, 8, 3⟩ 3 = Backoff.reset ⟨1, 2, 8, 3⟩ ∧
    reset_backoff ⟨1, 2, 8, 3⟩ 5 = ⟨1, 2, 8, 3⟩ :=
  ⟨(reset_backoff_guard ⟨1, 2, 8, 3⟩ 3).1 rfl,
   (reset_backoff_guard ⟨1, 2, 8, 3⟩ 5).2 (by decide)⟩

/-! ### Supervision loop -/

theorem loop_fail_exhaust :
    ∀ (sessions : List LoopSession) (bo : Backoff),
      (∀ s ∈ sessions, s.outcome = .fault ∧ s.resetFires = false) →
      bo.n ≤ bo.max → sessions.length = bo.max - bo.n + 1 →
      run_reboot_loop bo sessions = .exited ErrorCodes.RETRY_MAX_ATTEMPTS := by
  intro sessions
  induction sessions with
  | nil => intro bo _ h1 h2; simp at h2
  | cons s rest ih =>
    intro bo hall hle hlen
    obtain ⟨ho, hr⟩ := hall s (List.mem_cons_self s rest)
    by_cases hlt : bo.n < bo.max
    · have hstep : bo.next s.jitter = .ok (bo.t0 * bo.base ^ bo.n + (s.jitter : ℚ) / 1000,
          ⟨bo.t0, bo.base, bo.max, bo.n + 1⟩) := by
        simp [Backoff.next, hlt]
      simp only [run_reboot_loop, hr, ho, run, if_neg Bool.false_ne_true, hstep]
      exact ih ⟨bo.t0, bo.base, bo.max, bo.n + 1⟩
        (fun x hx => hall x (List.mem_cons_of_mem s hx))
        (by simpa using hlt) (by simp at hlen ⊢; omega)
    · have hstep : bo.next s.jitter = .error "Maximum attempts exceeded" := by
        simp [Backoff.next, hlt]
      simp [run_reboot_loop, hr, ho, run, hstep]

/-- C2 (amended): when the Backoff raises the retry-limit error — which, from
a freshly reset counter and with no reset applied, happens at the
`(max_attempts+1)`th consecutive session failure — the supervision loop exits
with the distinct `RETRY_MAX_ATTEMPTS` code (8), different from the `OK` code
(0) used for user interrupt and from the generic `ERROR` code (1). -/
theorem reboot_loop_retry_limit (bo : Backoff) (sessions : List LoopSession)
    (h0 : bo.n = 0)
    (hall : ∀ s ∈ sessions, s.outcome = .fault ∧ s.resetFires = false)
    (hlen : sessions.length = bo.max + 1) :
    run_reboot_loop bo sessions = .exited ErrorCodes.RETRY_MAX_ATTEMPTS ∧
    ErrorCodes.RETRY_MAX_ATTEMPTS ≠ ErrorCodes.OK ∧
    ErrorCodes.RETRY_MAX_ATTEMPTS ≠ ErrorCodes.ERROR :=
  ⟨loop_fail_exhaust sessions bo hall (by omega) (by omega), by decide, by decide⟩

/-- Witness for C2: `Backoff(3, 2, max_attempts=1)` and two consecutive failed
sessions: the loop exits with code 8. -/
theorem reboot_loop_retry_limit_witness :
    run_reboot_loop (Backoff.make 3 2 1)
      [⟨.fault, [], false, 0⟩, ⟨.fault, [], false, 0⟩] =
      .exited ErrorCodes.RETRY_MAX_ATTEMPTS :=
  (reboot_loop_retry_limit (Backoff.make 3 2 1)
    [⟨.fault, [], false, 0⟩, ⟨.fault, [], false, 0⟩]
    (by decide) (by decide) (by decide)).1

/-- C2 counterexample: after exactly `max_attempts` consecutive session
failures (no reset applied) the loop has NOT terminated: with
`Backoff(3, 2, max_attempts=3)` and three failed sessions, `next()` has been
called three times and succeeded each time, so the loop is still running with
counter 3 — the retry-limit exit needs a fourth failure. -/
theorem reboot_loop_exact_max_counterexample :
    run_reboot_loop (Backoff.make 3 2 3)
      [⟨.fault, [], false, 0⟩, ⟨.fault, [], false, 0⟩, ⟨.fault, [], false, 0⟩] =
      .running ⟨3, 2, 3, 3⟩ ∧
    LoopResult.running ⟨3, 2, 3, 3⟩ ≠ .exited ErrorCodes.RETRY_MAX_ATTEMPTS := by
  constructor
  · decide
  · decide

/-! ### Session teardown -/

theorem teardown_tail (pre : List RunEvent) (p : List ℕ) :
    (pre ++ runFinally p).getLast? = some RunEvent.writeState ∧
    (pre ++ runFinally p).dropLast.getLast? = some (RunEvent.awaitTasks p) := by
  unfold runFinally
  have hassoc : pre ++ (p.map RunEvent.cancelTask ++
      [RunEvent.awaitTasks p, RunEvent.writeState]) =
      ((pre ++ p.map RunEvent.cancelTask) ++ [RunEvent.awaitTasks p]) ++
        [RunEvent.writeState] := by
    simp
  rw [hassoc]
  constructor
  · exact List.getLast?_concat _
  · rw [List.dropLast_concat]
    exact List.getLast?_concat _

/-- C3: on every termination path of a session (normal disconnect, uncaught
exception, or user interrupt), every still-outstanding task is requested to
cancel, all of them are awaited together (with cancellation errors
suppressed), and the awaiting is the second-to-last effect, directly followed
by persisting the process-wide runtime state as the final effect — so no
spawned task outlives the session. -/
theorem run_teardown (o : SessionOutcome) (p : List ℕ) :
    (∀ t ∈ p, RunEvent.cancelTask t ∈ (run o p).1) ∧
    RunEvent.awaitTasks p ∈ (run o p).1 ∧
    (run o p).1.getLast? = some RunEvent.writeState ∧
    (run o p).1.dropLast.getLast? = some (RunEvent.awaitTasks p) := by
  cases o with
  | disconnected =>
    refine ⟨fun t ht => ?_, ?_, by simpa using teardown_tail [] p⟩
    · simpa [run, runFinally] using ht
    · simp [run, runFinally]
  | interrupt =>
    refine ⟨fun t ht => ?_, ?_, by simpa using teardown_tail [RunEvent.closeClient] p⟩
    · simpa [run, runFinally] using ht
    · simp [run, runFinally]
  | fault =>
    refine ⟨fun t ht => ?_, ?_,
      by simpa using teardown_tail [RunEvent.logFault, RunEvent.closeClient] p⟩
    · simpa [run, runFinally] using ht
    · simp [run, runFinally]

/-- Witness for C3: a faulting session with outstanding tasks 7 and 9 cancels
task 7, and its last effect is the state write. -/
theorem run_teardown_witness :
    RunEvent.cancelTask 7 ∈ (run .fault [7, 9]).1 ∧
    (run .fault [7, 9]).1.getLast? = some RunEvent.writeState :=
  ⟨(run_teardown .fault [7, 9]).1 7 (by decide), (run_teardown .fault [7, 9]).2.2.1⟩

/-- C4: an uncaught exception inside a session closes the connection, logs the
fault, and returns normally (`RunExit.ret`) instead of propagating, so the
supervisor treats it as "failed, retry" and continues the loop with an
advanced backoff; the user-interrupt signal instead exits cleanly with the
success code `OK` and the loop performs no retry regardless of what would
come after. -/
theorem run_fault_recovery (pend : List ℕ) (rf : Bool) (j : ℕ)
    (rest : List LoopSession) (bo : Backoff) (hn : bo.n < bo.max) :
    (run .fault pend).2 = .ret ∧
    RunEvent.logFault ∈ (run .fault pend).1 ∧
    RunEvent.closeClient ∈ (run .fault pend).1 ∧
    run_reboot_loop bo (⟨.fault, pend, rf, j⟩ :: rest) =
      run_reboot_loop ⟨bo.t0, bo.base, bo.max, (if rf then 0 else bo.n) + 1⟩ rest ∧
    (run .interrupt pend).2 = .exit ErrorCodes.OK ∧
    RunEvent.closeClient ∈ (run .interrupt pend).1 ∧
    run_reboot_loop bo (⟨.interrupt, pend, rf, j⟩ :: rest) = .exited ErrorCodes.OK ∧
    ErrorCodes.OK ≠ ErrorCodes.ERROR := by
  refine ⟨rfl, by simp [run], by simp [run], ?_, rfl, by simp [run], by simp [run_reboot_loop, run], by decide⟩
  cases rf with
  | false =>
    have hstep : bo.next j = .ok (bo.t0 * bo.base ^ bo.n + (j : ℚ) / 1000,
        ⟨bo.t0, bo.base, bo.max, bo.n + 1⟩) := by
      simp [Backoff.next, hn]
    simp [run_reboot_loop, run, hstep]
  | true =>
    have hreset : reset_backoff bo bo.n = ⟨bo.t0, bo.base, bo.max, 0⟩ := by
      simp [reset_backoff, Backoff.reset]
    have hstep : Backoff.next ⟨bo.t0, bo.base, bo.max, 0⟩ j =
        .ok (bo.t0 * bo.base ^ (0 : ℕ) + (j : ℚ) / 1000, ⟨bo.t0, bo.base, bo.max, 0 + 1⟩) := by
      simp [Backoff.next]
      omega
    simp [run_reboot_loop, run, hreset, hstep]

/-- Witness for C4: concrete faulting and interrupted sessions with `Backoff(3, 2, 8)`. -/
theorem run_fault_recovery_witness :
    run_reboot_loop (Backoff.make 3 2 8) [⟨.fault, [4], false, 0⟩] =
      run_reboot_loop ⟨3, 2, 8, (if false then 0 else (Backoff.make 3 2 8).n) + 1⟩ [] ∧
    run_reboot_loop (Backoff.make 3 2 8) [⟨.interrupt, [4], false, 0⟩] =
      .exited ErrorCodes.OK :=
  ⟨(run_fault_recovery [4] false 0 [] (Backoff.make 3 2 8) (by decide)).2.2.2.1,
   (run_fault_recovery [4] false 0 [] (Backoff.make 3 2 8) (by decide)).2.2.2.2.2.2.1⟩

/-! ### Dictionary lemmas -/

theorem dcontains_map_set {α : Type} (m : List (ℕ × α)) (k k' : ℕ) (v : α) :
    dcontains (m.map (fun p => if p.1 == k then (k, v) else p)) k' = dcontains m k' := by
  induction m with
  | nil => rfl
  | cons p t ih =>
    unfold dcontains at ih ⊢
    rw [List.map_cons, List.any_cons, List.any_cons, ih]
    by_cases h : p.1 = k
    · simp [h]
    · simp [h]

theorem dcontains_dset {α : Type} (m : List (ℕ × α)) (k k' : ℕ) (v : α) :
    dcontains (dset m k v) k' = ((k' == k) || dcontains m k') := by
  unfold dset
  by_cases h : dcontains m k = true
  · rw [if_pos h, dcontains_map_set]
    by_cases hk : k' = k
    · subst hk; simp [h]
    · simp [hk]
  · rw [if_neg h]
    unfold dcontains
    rw [List.any_append]
    simp only [List.any_cons, List.any_nil, Bool.or_false]
    by_cases hk : k' = k
    · simp [hk]
    · have h1 : (k' == k) = false := by simp [hk]
      have h2 : (k == k') = false := by simp [Ne.symm hk]
      simp [h1, h2]

theorem dcontains_derase {α : Type} (m : List (ℕ × α)) (k k' : ℕ) :
    dcontains (derase m k) k' = (!(k' == k) && dcontains m k') := by
  induction m with
  | nil => simp [derase, dcontains]
  | cons p t ih =>
    unfold derase dcontains at ih ⊢
    rw [List.filter_cons]
    by_cases h : p.1 = k
    · have hpk : (p.1 != k) = false := by simp [h]
      rw [hpk, if_neg (by decide), ih, List.any_cons]
      by_cases hk : k' = k
      · simp [hk]
      · have h2 : (p.1 == k') = false := by
          subst h
          simp [Ne.symm hk]
        simp [h2, hk]
    · have hpk : (p.1 != k) = true := by simp [h]
      rw [hpk, if_pos rfl, List.any_cons, List.any_cons, ih]
      by_cases hk : k' = k
      · subst hk
        have h2 : (p.1 == k') = false := by simp [h]
        simp [h2]
      · have h3 : (k' == k) = false := by simp [hk]
        simp [h3]

theorem derase_absent {α : Type} (m : List (ℕ × α)) (k : ℕ)
    (h : dcontains m k = false) : derase m k = m := by
  unfold derase
  apply List.filter_eq_self.mpr
  intro p hp
  simp only [dcontains, List.any_eq_false] at h
  simpa using h p hp

theorem dget?_isSome {α : Type} (m : List (ℕ × α)) (k : ℕ) :
    (dget? m k).isSome = dcontains m k := by
  induction m with
  | nil => rfl
  | cons p t ih =>
    unfold dget? dcontains at ih ⊢
    rw [List.find?_cons, List.any_cons]
    by_cases h : p.1 = k
    · have hb : (p.1 == k) = true := by simp [h]
      rw [hb]
      simp
    · have hb : (p.1 == k) = false := by simp [h]
      rw [hb]
      simpa using ih

theorem dget?_none_of_not_contains {α : Type} (m : List (ℕ × α)) (k : ℕ)
    (h : dcontains m k = false) : dget? m k = none := by
  have := dget?_isSome m k
  rw [h] at this
  exact Option.not_isSome_iff_eq_none.mp (by simp [this])

theorem dcontains_of_dget? {α : Type} (m : List (ℕ × α)) (k : ℕ) (v : α)
    (h : dget? m k = some v) : dcontains m k = true := by
  rw [← dget?_isSome, h]
  rfl

/-! ### WizardManager lemmas -/

theorem disjoint_wizards_iff (m : WizardManager) :
    disjoint_wizards m = true ↔ DisjointP m := by
  unfold disjoint_wizards DisjointP
  rw [List.all_eq_true]
  constructor
  · intro h u hu
    simp only [dcontains, List.any_eq_true] at hu
    obtain ⟨p, hp, hpk⟩ := hu
    have := h p hp
    simp only [Bool.not_eq_true'] at this
    have hk : p.1 = u := by simpa using hpk
    rwa [hk] at this
  · intro h p hp
    have hcont : dcontains m.new_wizards p.1 = true := by
      simp only [dcontains, List.any_eq_true]
      exact ⟨p, hp, by simp⟩
    simp [h p.1 hcont]

theorem get_wizard_for_inv (m : WizardManager) (uid : ℕ) (name : String)
    (w : ProjectWizard) (h : get_wizard_for m uid = .ok (name, w)) :
    (name = "new" ∧ dget? m.new_wizards uid = some (some w)) ∨
    (name = "edit" ∧ dget? m.edit_wizards uid = some (some w)) := by
  unfold get_wizard_for at h
  cases hn : dget? m.new_wizards uid with
  | none =>
    rw [hn] at h
    cases he : dget? m.edit_wizards uid with
    | none => rw [he] at h; simp at h
    | some o =>
      cases o with
      | none => rw [he] at h; simp at h
      | some w2 =>
        rw [he] at h
        simp only [Except.ok.injEq, Prod.mk.injEq] at h
        obtain ⟨rfl, rfl⟩ := h
        exact Or.inr ⟨rfl, rfl⟩
  | some o =>
    cases o with
    | none =>
      rw [hn] at h
      cases he : dget? m.edit_wizards uid with
      | none => rw [he] at h; simp at h
      | some o2 =>
        cases o2 with
        | none => rw [he] at h; simp at h
        | some w2 =>
          rw [he] at h
          simp only [Except.ok.injEq, Prod.mk.injEq] at h
          obtain ⟨rfl, rfl⟩ := h
          exact Or.inr ⟨rfl, rfl⟩
    | some w2 =>
      rw [hn] at h
      simp only [Except.ok.injEq, Prod.mk.injEq] at h
      obtain ⟨rfl, rfl⟩ := h
      exact Or.inl ⟨rfl, rfl⟩

theorem create_new_state (m : WizardManager) (uid ts : ℕ) (s1 s2 : Bool) :
    (create_new_wizard m uid ts s1 s2).state =
      if has_open_wizard m uid then m
      else ⟨dset m.new_wizards uid (some (fresh_wizard uid ts)), m.edit_wizards⟩ := by
  unfold create_new_wizard
  by_cases h : has_open_wizard m uid = true
  · simp [h]
  · simp only [Bool.not_eq_true] at h
    simp only [h, Bool.false_eq_true, if_false]
    cases s1 with
    | false => simp
    | true =>
      simp only [Bool.not_true, Bool.false_eq_true, if_false]
      cases hq : send_question
          ⟨dset m.new_wizards uid (some (fresh_wizard uid ts)), m.edit_wizards⟩ uid with
      | error e => simp
      | ok q => cases s2 <;> simp

theorem create_edit_state (m : WizardManager) (uid ts : ℕ) (title : String) (s1 s2 : Bool) :
    (create_edit_wizard m uid ts title s1 s2).state =
      if has_open_wizard m uid then m
      else ⟨m.new_wizards, dset m.edit_wizards uid (some ⟨uid, ts, 0, [], question_keys⟩)⟩ := by
  unfold create_edit_wizard
  by_cases h : has_open_wizard m uid = true
  · simp [h]
  · simp only [Bool.not_eq_true] at h
    simp only [h, Bool.false_eq_true, if_false]
    cases s1 with
    | false => simp
    | true =>
      simp only [Bool.not_true, Bool.false_eq_true, if_false]
      cases hq : send_question
          ⟨m.new_wizards, dset m.edit_wizards uid (some ⟨uid, ts, 0, [], question_keys⟩)⟩ uid with
      | error e => simp
      | ok q => cases s2 <;> simp

theorem has_open_false (m : WizardManager) (uid : ℕ)
    (h : has_open_wizard m uid = false) :
    dcontains m.new_wizards uid = false ∧ dcontains m.edit_wizards uid = false := by
  unfold has_open_wizard at h
  simpa [Bool.or_eq_false_iff] using h

theorem disjointP_mono (m m' : WizardManager)
    (hn : ∀ u, dcontains m'.new_wizards u = true → dcontains m.new_wizards u = true)
    (he : ∀ u, dcontains m'.edit_wizards u = true → dcontains m.edit_wizards u = true)
    (h : DisjointP m) : DisjointP m' := by
  intro u hu
  cases hee : dcontains m'.edit_wizards u with
  | false => rfl
  | true =>
    have := h u (hn u hu)
    rw [he u hee] at this
    exact this.symm ▸ rfl

theorem disjointP_insert_new (m : WizardManager) (uid : ℕ) (v : Option ProjectWizard)
    (h : DisjointP m) (hedit : dcontains m.edit_wizards uid = false) :
    DisjointP ⟨dset m.new_wizards uid v, m.edit_wizards⟩ := by
  intro u hu
  simp only at hu ⊢
  rw [dcontains_dset] at hu
  cases hk : (u == uid) with
  | true =>
    have : u = uid := by simpa using hk
    rwa [this]
  | false =>
    rw [hk] at hu
    simp only [Bool.false_or] at hu
    exact h u hu

theorem disjointP_insert_edit (m : WizardManager) (uid : ℕ) (v : Option ProjectWizard)
    (h : DisjointP m) (hnew : dcontains m.new_wizards uid = false) :
    DisjointP ⟨m.new_wizards, dset m.edit_wizards uid v⟩ := by
  intro u hu
  simp only at hu ⊢
  rw [dcontains_dset]
  cases hk : (u == uid) with
  | true =>
    have : u = uid := by simpa using hk
    rw [this] at hu
    rw [hu] at hnew
    exact absurd hnew (by simp)
  | false =>
    simp only [Bool.false_or]
    exact h u hu

theorem not_contains_new_of_edit (m : WizardManager) (uid : ℕ) (h : DisjointP m)
    (he : dcontains m.edit_wizards uid = true) :
    dcontains m.new_wizards uid = false := by
  cases hc : dcontains m.new_wizards uid with
  | false => rfl
  | true =>
    rw [h uid hc] at he
    exact absurd he (by simp)

theorem disjointP_process_answer (m : WizardManager) (uid : ℕ) (content : String)
    (h : DisjointP m) : DisjointP (process_answer m uid content).state := by
  unfold process_answer
  split
  · exact h
  · split
    · exact h
    · split
      · rename_i name w hget x w2 ha hname
        dsimp only
        rcases get_wizard_for_inv m uid name w hget with ⟨hn, hg⟩ | ⟨hn, hg⟩
        · exact disjointP_insert_new m uid (some w2) h
            (h uid (dcontains_of_dget? _ _ _ hg))
        · rw [hn] at hname
          exact absurd hname (by decide)
      · rename_i name w hget x w2 ha hname
        dsimp only
        rcases get_wizard_for_inv m uid name w hget with ⟨hn, hg⟩ | ⟨hn, hg⟩
        · rw [hn] at hname
          exact absurd (by decide) hname
        · exact disjointP_insert_edit m uid (some w2) h
            (not_contains_new_of_edit m uid h (dcontains_of_dget? _ _ _ hg))

theorem disjointP_close_wizard (m : WizardManager) (uid : ℕ)
    (h : DisjointP m) : DisjointP (close_wizard m uid).state := by
  unfold close_wizard
  split
  · exact h
  · split
    · split
      · dsimp only
        refine disjointP_mono m _ (fun u hu => ?_) (fun u hu => hu) h
        dsimp only at hu
        rw [dcontains_derase] at hu
        exact (Bool.and_eq_true_iff.mp hu).2
      · dsimp only
        refine disjointP_mono m _ (fun u hu => hu) (fun u hu => ?_) h
        dsimp only at hu
        rw [dcontains_derase] at hu
        exact (Bool.and_eq_true_iff.mp hu).2
    · exact h

theorem cancel_wizards_eq (m : WizardManager) (uid : ℕ) :
    cancel_wizards m uid =
      (⟨derase m.new_wizards uid, derase m.edit_wizards uid⟩,
       (if dcontains m.new_wizards uid then [cancel_new_msg] else []) ++
       (if dcontains m.edit_wizards uid then [cancel_edit_msg] else [])) := by
  unfold cancel_wizards
  by_cases h1 : dcontains m.new_wizards uid = true
  · by_cases h2 : dcontains m.edit_wizards uid = true
    · simp [h1, h2]
    · simp only [Bool.not_eq_true] at h2
      simp [h1, h2, derase_absent m.edit_wizards uid h2]
  · simp only [Bool.not_eq_true] at h1
    by_cases h2 : dcontains m.edit_wizards uid = true
    · simp [h1, h2, derase_absent m.new_wizards uid h1]
    · simp only [Bool.not_eq_true] at h2
      simp [h1, h2, derase_absent m.new_wizards uid h1, derase_absent m.edit_wizards uid h2]

theorem disjointP_cancel_wizards (m : WizardManager) (uid : ℕ)
    (h : DisjointP m) : DisjointP (cancel_wizards m uid).1 := by
  rw [cancel_wizards_eq]
  refine disjointP_mono m _ (fun u hu => ?_) (fun u hu => ?_) h <;>
    rw [dcontains_derase] at hu <;> exact (Bool.and_eq_true_iff.mp hu).2

/-- C6: all five WizardManager operations preserve the invariant that a user
id is a key of at most one of the `'new'` and `'edit'` mappings, and
`has_open_wizard` holds exactly when the user id is a key of either mapping. -/
theorem wizard_manager_invariant (m : WizardManager) (uid ts : ℕ)
    (projTitle content : String) (s1 s2 : Bool)
    (hdisj : disjoint_wizards m = true) :
    disjoint_wizards (create_new_wizard m uid ts s1 s2).state = true ∧
    disjoint_wizards (create_edit_wizard m uid ts projTitle s1 s2).state = true ∧
    disjoint_wizards (process_answer m uid content).state = true ∧
    disjoint_wizards (close_wizard m uid).state = true ∧
    disjoint_wizards (cancel_wizards m uid).1 = true ∧
    (∀ u, has_open_wizard m u = (dcontains m.new_wizards u || dcontains m.edit_wizards u)) := by
  rw [disjoint_wizards_iff] at hdisj
  refine ⟨?_, ?_, ?_, ?_, ?_, fun u => rfl⟩ <;> rw [disjoint_wizards_iff]
  · rw [create_new_state]
    by_cases h : has_open_wizard m uid = true
    · simpa [h] using hdisj
    · simp only [Bool.not_eq_true] at h
      simp only [h, Bool.false_eq_true, if_false]
      exact disjointP_insert_new m uid _ hdisj (has_open_false m uid h).2
  · rw [create_edit_state]
    by_cases h : has_open_wizard m uid = true
    · simpa [h] using hdisj
    · simp only [Bool.not_eq_true] at h
      simp only [h, Bool.false_eq_true, if_false]
      exact disjointP_insert_edit m uid _ hdisj (has_open_false m uid h).1
  · exact disjointP_process_answer m uid content hdisj
  · exact disjointP_close_wizard m uid hdisj
  · exact disjointP_cancel_wizards m uid hdisj

/-- Witness for C6 at a concrete manager holding one open `'new'` wizard. -/
theorem wizard_manager_invariant_witness :
    disjoint_wizards
      (cancel_wizards ⟨[(1, some (fresh_wizard 1 0))], []⟩ 1).1 = true ∧
    has_open_wizard (⟨[(1, some (fresh_wizard 1 0))], []⟩ : WizardManager) 1 =
      (dcontains [(1, some (fresh_wizard 1 0))] 1 || dcontains ([] : UserDict) 1) :=
  ⟨(wizard_manager_invariant ⟨[(1, some (fresh_wizard 1 0))], []⟩ 1 0 "t" "c"
      true true (by decide)).2.2.2.2.1,
   (wizard_manager_invariant ⟨[(1, some (fresh_wizard 1 0))], []⟩ 1 0 "t" "c"
      true true (by decide)).2.2.2.2.2 1⟩

/-- C7 (code bug): when the user has no open wizard, `create_new_wizard`
inserts the fresh wizard and, if sending the start prompt fails, the
exception propagates — but the wizard is NOT removed: the cleanup call
`self.cancel_wizards(member)` in the `except` handler builds a coroutine
without awaiting it, so it never runs, leaving a half-open wizard behind
(here: user 42, start-send failure; the user still has an open wizard). -/
theorem create_new_wizard_send_failure_keeps_wizard :
    (create_new_wizard ⟨[], []⟩ 42 0 false true).result = .error .sendFailed ∧
    has_open_wizard (create_new_wizard ⟨[], []⟩ 42 0 false true).state 42 = true := by
  constructor
  · decide
  · decide

/-- C8: for a user whose lookup yields an actual open wizard, `close_wizard`
fails with the not-completed error and changes nothing while `is_done` is
false; once `is_done` is true it removes the wizard from its mapping, sends
the completion message, returns `(kind, wizard)`, and afterwards the user has
no open wizard (given the at-most-one-mapping invariant). -/
theorem close_wizard_spec (m : WizardManager) (uid : ℕ) (name : String)
    (w : ProjectWizard) (hdisj : disjoint_wizards m = true)
    (hget : get_wizard_for m uid = .ok (name, w)) :
    (w.is_done = false → close_wizard m uid = ⟨m, [], .error .notDone⟩) ∧
    (w.is_done = true →
      (close_wizard m uid).result = .ok (name, w) ∧
      (close_wizard m uid).msgs = [end_msg] ∧
      has_open_wizard (close_wizard m uid).state uid = false) := by
  rw [disjoint_wizards_iff] at hdisj
  constructor
  · intro hd
    unfold close_wizard
    rw [hget]
    simp [hd]
  · intro hd
    unfold close_wizard
    rw [hget]
    dsimp only
    rcases get_wizard_for_inv m uid name w hget with ⟨hname, hg⟩ | ⟨hname, hg⟩
    · have hcont : dcontains m.new_wizards uid = true := dcontains_of_dget? _ _ _ hg
      have hedit : dcontains m.edit_wizards uid = false := hdisj uid hcont
      subst hname
      refine ⟨?_, ?_, ?_⟩ <;>
        simp [hd, beq_self_eq_true, has_open_wizard, dcontains_derase, hedit]
    · have hcont : dcontains m.edit_wizards uid = true := dcontains_of_dget? _ _ _ hg
      have hnew : dcontains m.new_wizards uid = false :=
        not_contains_new_of_edit m uid hdisj hcont
      subst hname
      have hne : (("edit" : String) == "new") = false := by decide
      refine ⟨?_, ?_, ?_⟩ <;>
        simp [hd, hne, has_open_wizard, dcontains_derase, hnew]

/-- Witness for C8: a manager holding a completed `'new'` wizard for user 1
(all five questions consumed): closing returns it and the user is left
without an open wizard. -/
theorem close_wizard_spec_witness :
    (close_wizard ⟨[(1, some ⟨1, 0, 5, [], ["subgenre"]⟩)], []⟩ 1).result =
      .ok ("new", ⟨1, 0, 5, [], ["subgenre"]⟩) ∧
    has_open_wizard (close_wizard ⟨[(1, some ⟨1, 0, 5, [], ["subgenre"]⟩)], []⟩ 1).state 1 =
      false := by
  have h := (close_wizard_spec ⟨[(1, some ⟨1, 0, 5, [], ["subgenre"]⟩)], []⟩ 1 "new"
      ⟨1, 0, 5, [], ["subgenre"]⟩ (by decide) (by decide)).2 (by decide)
  exact ⟨h.1, h.2.2⟩

/-- C9: `cancel_wizards` removes the user from whichever mappings contain
them, one kind-specific notice per removed entry; afterwards the user has no
open wizard; with no open wizard it is a no-op, so running it twice equals
running it once. -/
theorem cancel_wizards_spec (m : WizardManager) (uid : ℕ) :
    has_open_wizard (cancel_wizards m uid).1 uid = false ∧
    (has_open_wizard m uid = false → cancel_wizards m uid = (m, [])) ∧
    cancel_wizards (cancel_wizards m uid).1 uid = ((cancel_wizards m uid).1, []) ∧
    (cancel_wizards m uid).2 =
      (if dcontains m.new_wizards uid then [cancel_new_msg] else []) ++
      (if dcontains m.edit_wizards uid then [cancel_edit_msg] else []) := by
  have hopen : has_open_wizard (cancel_wizards m uid).1 uid = false := by
    rw [cancel_wizards_eq]
    unfold has_open_wizard
    simp [dcontains_derase]
  have hnoop : ∀ m2 : WizardManager, has_open_wizard m2 uid = false →
      cancel_wizards m2 uid = (m2, []) := by
    intro m2 h2
    obtain ⟨hn, he⟩ := has_open_false m2 uid h2
    rw [cancel_wizards_eq, derase_absent _ _ hn, derase_absent _ _ he, hn, he]
    simp
  refine ⟨hopen, hnoop m, ?_, ?_⟩
  · exact hnoop (cancel_wizards m uid).1 hopen
  · rw [cancel_wizards_eq]

/-- Witness for C9: cancelling user 1's open `'new'` wizard empties the
manager; cancelling in an empty manager is a no-op. -/
theorem cancel_wizards_spec_witness :
    has_open_wizard (cancel_wizards ⟨[(1, some (fresh_wizard 1 0))], []⟩ 1).1 1 = false ∧
    cancel_wizards (⟨[], []⟩ : WizardManager) 7 = (⟨[], []⟩, []) :=
  ⟨(cancel_wizards_spec ⟨[(1, some (fresh_wizard 1 0))], []⟩ 1).1,
   (cancel_wizards_spec ⟨[], []⟩ 7).2.1 (by decide)⟩

/-- C10: a mapping entry holding `None` makes `has_open_wizard` report an
open wizard while `get_wizard_for` — and hence `process_answer` — fails with
the no-active-wizard error: under the at-most-one-mapping invariant,
"has an open wizard" does not imply that the wizard lookup succeeds. -/
theorem none_entry_spec (m : WizardManager) (uid : ℕ) (content : String)
    (hdisj : disjoint_wizards m = true)
    (h : dget? m.new_wizards uid = some none ∨ dget? m.edit_wizards uid = some none) :
    has_open_wizard m uid = true ∧
    get_wizard_for m uid = .error .noActiveWizard ∧
    (process_answer m uid content).result = .error .noActiveWizard := by
  rw [disjoint_wizards_iff] at hdisj
  have hget : get_wizard_for m uid = .error .noActiveWizard ∧
      has_open_wizard m uid = true := by
    rcases h with hn | he
    · have hcont : dcontains m.new_wizards uid = true := dcontains_of_dget? _ _ _ hn
      have hedit : dcontains m.edit_wizards uid = false := hdisj uid hcont
      have heget : dget? m.edit_wizards uid = none :=
        dget?_none_of_not_contains _ _ hedit
      constructor
      · unfold get_wizard_for
        rw [hn, heget]
      · unfold has_open_wizard
        rw [hcont]
        rfl
    · have hcont : dcontains m.edit_wizards uid = true := dcontains_of_dget? _ _ _ he
      have hnew : dcontains m.new_wizards uid = false := by
        cases hc : dcontains m.new_wizards uid with
        | false => rfl
        | true =>
          have := hdisj uid hc
          rw [hcont] at this
          exact absurd this (by simp)
      have hnget : dget? m.new_wizards uid = none :=
        dget?_none_of_not_contains _ _ hnew
      constructor
      · unfold get_wizard_for
        rw [hnget, he]
      · unfold has_open_wizard
        rw [hcont]
        simp
  refine ⟨hget.2, hget.1, ?_⟩
  unfold process_answer
  rw [hget.1]

/-- Witness for C10: a manager whose `'new'` mapping maps user 3 to `None`. -/
theorem none_entry_spec_witness :
    has_open_wizard ⟨[(3, none)], []⟩ 3 = true ∧
    get_wizard_for ⟨[(3, none)], []⟩ 3 = .error .noActiveWizard :=
  ⟨(none_entry_spec ⟨[(3, none)], []⟩ 3 "x" (by decide) (Or.inl (by decide))).1,
   (none_entry_spec ⟨[(3, none)], []⟩ 3 "x" (by decide) (Or.inl (by decide))).2.1⟩

end KazTron
